import Mathlib

/-!
Shallow embedding of the backend of the crud-app repository
(src/backend/app.js): a JSON-file-backed user-record store with
Create / Read / Update / Delete HTTP handlers.

JSON values that can appear in a record field are modelled by `JsVal`
(integers and strings; the records of this application hold only these).
A JS object is modelled as an association list of key/value pairs with
distinct keys, as produced by JSON parsing; `Obj.get` looks a key up.

JS `parseInt` (called with no radix argument in app.js) is modelled by
`parseIntStr`: leading whitespace is skipped, an optional sign is read,
a `0x`/`0X` prefix switches to hexadecimal, and the longest digit prefix
is converted; `none` plays the role of `NaN`.  `parseInt` applied to a
JS number first converts it to a string and reparses it, which for the
integers of this model is the identity; `jsParseInt` captures this.

The file system is a single document, modelled as `Option String`
(`none` = the file does not exist).  `JSON.parse` / `JSON.stringify` are
platform library functions, not repository code, so `readDataFromFile`
and `writeDataToFile` are parametrised by an abstract `parse` and
`serialize` function.
-/

/-- A JSON scalar value as used by the records of this app. -/
inductive JsVal where
  | num : Int → JsVal
  | str : String → JsVal
deriving DecidableEq, Repr

/-- A JS object: an association list of key/value pairs (keys distinct,
as produced by JSON parsing). -/
abbrev Obj := List (String × JsVal)

/-- Property access `o[k]`: the value at key `k`, `none` if absent. -/
def Obj.get (o : Obj) (k : String) : Option JsVal :=
  (o.find? (fun kv => kv.1 == k)).map (fun kv => kv.2)

/-- JS whitespace characters skipped by `parseInt` (the common ones). -/
def jsWhitespace (c : Char) : Bool :=
  c = ' ' ∨ c = '\t' ∨ c = '\n' ∨ c = '\r' ∨ c = '\x0b' ∨ c = '\x0c'

/-- Value of a hexadecimal digit character, `none` otherwise. -/
def hexDigitVal (c : Char) : Option Nat :=
  if c.isDigit then some (c.toNat - 48)
  else if 'a' ≤ c ∧ c ≤ 'f' then some (c.toNat - 87)
  else if 'A' ≤ c ∧ c ≤ 'F' then some (c.toNat - 55)
  else none

/-- Longest prefix of digit characters (per `isDig`) of `cs`, read in
base `base`; `none` when the prefix is empty (JS `NaN`). -/
def parseDigits (base : Nat) (isDig : Char → Bool) (cs : List Char) : Option Nat :=
  let ds := cs.takeWhile isDig
  if ds.isEmpty then none
  else some (ds.foldl (fun acc c => acc * base + (hexDigitVal c).getD 0) 0)

/-- `parseInt` on a character list, after whitespace and sign handling. -/
def parseIntAfterSign (cs : List Char) : Option Nat :=
  match cs with
  | '0' :: x :: rest =>
      if x = 'x' ∨ x = 'X' then parseDigits 16 (fun c => (hexDigitVal c).isSome) rest
      else parseDigits 10 Char.isDigit ('0' :: x :: rest)
  | _ => parseDigits 10 Char.isDigit cs

/-- JS `parseInt(s)` (radix omitted, as in app.js): `none` models `NaN`. -/
def parseIntStr (s : String) : Option Int :=
  match s.data.dropWhile jsWhitespace with
  | '-' :: rest => (parseIntAfterSign rest).map (fun n => -(n : Int))
  | '+' :: rest => (parseIntAfterSign rest).map (fun n => (n : Int))
  | cs => (parseIntAfterSign cs).map (fun n => (n : Int))

/-- JS `parseInt(v)` on a field value: a number is stringified and
reparsed (the identity on the integers of this model); a string goes
through `parseIntStr`; an absent field (`undefined`) gives `NaN`. -/
def jsParseInt (v : Option JsVal) : Option Int :=
  match v with
  | some (JsVal.num n) => some n
  | some (JsVal.str s) => parseIntStr s
  | none => none

/-- `parseInt(item.id)`: the stored id of a record, parsed as integer. -/
def recIdInt (item : Obj) : Option Int :=
  jsParseInt (Obj.get item "id")

/-- `parseInt(item.id) === id` where `id` is the parsed path parameter:
`NaN` (`none`) on either side never compares equal. -/
def idMatches (pathId : Option Int) (item : Obj) : Bool :=
  match pathId, recIdInt item with
  | some p, some q => p = q
  | _, _ => false

/-- `generateId` from app.js: 1 for an empty array, else filter the
parseable ids and return their maximum plus one (1 if none parse). -/
def generateId (dataArray : List Obj) : Int :=
  if dataArray.length = 0 then 1
  else
    match dataArray.filterMap recIdInt with
    | [] => 1
    | x :: xs => xs.foldl max x + 1

/-- The JS object `{ id: v, ...body }`: the `id` key keeps its leading
position but the spread's value wins when `body` itself has an `id`
key; all other keys come from `body` in order. -/
def assignId (v : JsVal) (body : Obj) : Obj :=
  ("id", (Obj.get body "id").getD v) :: body.filter (fun kv => !(kv.1 == "id"))

/-- `readDataFromFile`: missing file or empty contents give `[]`; a
parse failure is caught and also gives `[]` (fail-open). -/
def readDataFromFile (parse : String → Option (List Obj)) (file : Option String) :
    List Obj :=
  match file with
  | none => []
  | some fileData =>
      if fileData = "" then []
      else
        match parse fileData with
        | none => []
        | some data => data

/-- `writeDataToFile`: overwrites the document with the serialized
collection; the resulting file state is returned. -/
def writeDataToFile (serialize : List Obj → String) (data : List Obj) :
    Option String :=
  some (serialize data)

/-- Result of the POST /data handler: the saved collection and the
created record echoed in the response. -/
structure PostResult where
  store : List Obj
  data : Obj
deriving DecidableEq, Repr

/-- POST /data on the loaded collection: assign `generateId`, build
`{ id: newId, ...req.body }`, append, save. -/
def postData (existingData : List Obj) (body : Obj) : PostResult :=
  let newId := generateId existingData
  let todoData := assignId (JsVal.num newId) body
  ⟨existingData ++ [todoData], todoData⟩

/-- GET /data/:id on the loaded collection: first record whose parsed
id equals the parsed path parameter; `none` means the 404 response. -/
def getData (store : List Obj) (pathParam : String) : Option Obj :=
  store.find? (idMatches (parseIntStr pathParam))

/-- Result of the DELETE /data/:id handler: HTTP status and the
collection as persisted (unchanged on 404, where no save happens). -/
structure DeleteResult where
  status : Nat
  store : List Obj
deriving DecidableEq, Repr

/-- DELETE /data/:id on the loaded collection: drop every record whose
parsed id matches; if nothing was dropped respond 404 without saving. -/
def deleteData (store : List Obj) (pathParam : String) : DeleteResult :=
  let id? := parseIntStr pathParam
  let filteredData := store.filter (fun item => !(idMatches id? item))
  if filteredData.length = store.length then ⟨404, store⟩
  else ⟨200, filteredData⟩

/-- JS `Array.prototype.findIndex`: index of the first element on which
`p` holds; `none` models the -1 result. -/
def jsFindIndex (p : Obj → Bool) : List Obj → Option Nat
  | [] => none
  | r :: rest => if p r then some 0 else (jsFindIndex p rest).map (fun i => i + 1)

/-- Result of the PUT /data/:id handler: HTTP status, the collection as
persisted, and the updated record echoed on success. -/
structure PutResult where
  status : Nat
  store : List Obj
  data : Option Obj
deriving DecidableEq, Repr

/-- PUT /data/:id on the loaded collection: find the first record whose
parsed id matches and replace it with `{ id, ...req.body }` (`id` the
parsed path parameter); 404 without saving when none matches.  An
unparseable path parameter is `NaN` in app.js, which matches no record,
so the findIndex scan returns -1 and the handler responds 404. -/
def putData (store : List Obj) (pathParam : String) (body : Obj) : PutResult :=
  match parseIntStr pathParam with
  | none => ⟨404, store, none⟩
  | some id =>
      match jsFindIndex (idMatches (some id)) store with
      | none => ⟨404, store, none⟩
      | some index =>
          let updatedItem := assignId (JsVal.num id) body
          ⟨200, store.set index updatedItem, some updatedItem⟩

/-- The raw id value of a record when it is literally an integer. -/
def rawIntId (r : Obj) : Option Int :=
  match Obj.get r "id" with
  | some (JsVal.num n) => some n
  | _ => none

/-- The collection invariant of the spec: every stored id value is an
integer and the id values are pairwise distinct. -/
def uniqueIntIds (d : List Obj) : Prop :=
  (∀ r ∈ d, (rawIntId r).isSome = true) ∧ (d.map rawIntId).Nodup

instance (d : List Obj) : Decidable (uniqueIntIds d) := by
  unfold uniqueIntIds
  infer_instance

/-- A concrete JSON parser covering the single document the witnesses
below exercise. -/
def parseEmptyArr (s : String) : Option (List Obj) :=
  if s = "[]" then some [] else none

/-- A concrete serializer matching `parseEmptyArr` on the empty
collection. -/
def serializeEmptyArr (_ : List Obj) : String := "[]"

/-- Concrete store with ids 1 and 3 (the Create scenario of the spec). -/
def storeOneThree : List Obj := [[("id", JsVal.num 1)], [("id", JsVal.num 3)]]

/-- Concrete create body with name and email only. -/
def bodyAna : Obj := [("name", JsVal.str "Ana"), ("email", JsVal.str "a@x.com")]

/-- Concrete one-record store with id 1. -/
def storeSingle1 : List Obj := [[("id", JsVal.num 1), ("name", JsVal.str "Ana")]]

/-- Concrete record whose id value is not parseable as an integer. -/
def recNoNumId : Obj := [("id", JsVal.str "zz")]

/-- Concrete store holding the unparseable-id record twice. -/
def storeDupZZ : List Obj := [recNoNumId, recNoNumId]

/-- Concrete request body that smuggles in an `id` field. -/
def bodyWithId7 : Obj := [("id", JsVal.num 7)]

/-- Concrete stored record whose id is the string " 3" (parses to 3). -/
def recOld3 : Obj := [("id", JsVal.str " 3"), ("name", JsVal.str "Old")]

/-- Concrete update body that smuggles in an `id` field. -/
def bodyId99 : Obj := [("id", JsVal.num 99), ("email", JsVal.str "e@x.com")]

/-- Concrete update body with name and email only. -/
def bodyBea : Obj := [("name", JsVal.str "Bea"), ("email", JsVal.str "b@x.com")]

/-- Concrete one-record store with id 3 and a phone field. -/
def storePhone3 : List Obj :=
  [[("id", JsVal.num 3), ("name", JsVal.str "Old"), ("phone", JsVal.str "123")]]

/-- Concrete create body whose `id` field is a non-numeric string. -/
def bodyIdAbc : Obj := [("id", JsVal.str "abc")]

/-- Concrete store of two records with ids 1 and 2. -/
def storeOneTwo : List Obj :=
  [[("id", JsVal.num 1), ("name", JsVal.str "a")], [("id", JsVal.num 2), ("name", JsVal.str "b")]]

/-- Every element of `x :: xs` is at most `xs.foldl max x`. -/
theorem foldl_max_le (x : Int) (xs : List Int) : ∀ n ∈ x :: xs, n ≤ xs.foldl max x := by
  induction xs generalizing x with
  | nil => intro n hn; rw [List.mem_singleton] at hn; simp [hn]
  | cons y ys ih =>
      intro n hn
      simp only [List.foldl_cons]
      have hx : x ≤ ys.foldl max (max x y) :=
        le_trans (le_max_left x y) (ih _ _ (List.mem_cons_self _ _))
      have hy : y ≤ ys.foldl max (max x y) :=
        le_trans (le_max_right x y) (ih _ _ (List.mem_cons_self _ _))
      rcases List.mem_cons.mp hn with h | h
      · exact h ▸ hx
      rcases List.mem_cons.mp h with h1 | h1
      · exact h1 ▸ hy
      · exact ih _ n (List.mem_cons_of_mem _ h1)

/-- `xs.foldl max x` is one of the elements of `x :: xs`. -/
theorem foldl_max_mem (x : Int) (xs : List Int) : xs.foldl max x ∈ x :: xs := by
  induction xs generalizing x with
  | nil => simp
  | cons y ys ih =>
      simp only [List.foldl_cons]
      rcases List.mem_cons.mp (ih (max x y)) with h | h
      · rw [h]
        rcases max_choice x y with hm | hm
        · rw [hm]; exact List.mem_cons_self _ _
        · rw [hm]; exact List.mem_cons_of_mem _ (List.mem_cons_self _ _)
      · exact List.mem_cons_of_mem _ (List.mem_cons_of_mem _ h)

/-- `generateId` exceeds every parseable stored id. -/
theorem generateId_gt (d : List Obj) : ∀ n ∈ d.filterMap recIdInt, n < generateId d := by
  intro n hn
  unfold generateId
  have hd : ¬ d.length = 0 := by
    intro h
    rw [List.length_eq_zero] at h
    subst h
    simp at hn
  rw [if_neg hd]
  cases h : d.filterMap recIdInt with
  | nil => rw [h] at hn; simp at hn
  | cons x xs =>
      rw [h] at hn
      show n < xs.foldl max x + 1
      have := foldl_max_le x xs n hn
      omega

/-- A record whose id field is an integer value parses to it. -/
theorem recIdInt_of_rawIntId (r : Obj) (n : Int) (h : rawIntId r = some n) :
    recIdInt r = some n := by
  unfold rawIntId at h
  unfold recIdInt
  cases hv : Obj.get r "id" with
  | none => rw [hv] at h; simp at h
  | some v =>
      rw [hv] at h
      cases v with
      | num m => simp at h; simp [jsParseInt, h]
      | str s => simp at h

/-- A match succeeds exactly when both sides parse to the same integer. -/
theorem idMatches_true_iff (pid : Option Int) (item : Obj) :
    idMatches pid item = true ↔ ∃ n, pid = some n ∧ recIdInt item = some n := by
  unfold idMatches
  cases pid with
  | none =>
      simp
  | some p =>
      cases h : recIdInt item with
      | none => simp
      | some q => simp [h, eq_comm]

/-- `NaN` on the path side matches no record. -/
theorem idMatches_none (item : Obj) : idMatches none item = false := by
  unfold idMatches
  cases recIdInt item <;> rfl

/-- Key lookup ignores the removal of the `id` pairs for other keys. -/
theorem Obj.get_filter_ne_id (body : Obj) (k : String) (hk : ¬ k = "id") :
    Obj.get (body.filter (fun kv => !(kv.1 == "id"))) k = Obj.get body k := by
  induction body with
  | nil => rfl
  | cons kv rest ih =>
      by_cases hkv : kv.1 = "id"
      · rw [List.filter_cons_of_neg (by simp [hkv])]
        unfold Obj.get at ih ⊢
        rw [List.find?_cons_of_neg _ (by simp only [beq_iff_eq, hkv]; exact fun h => hk h.symm)]
        exact ih
      · rw [List.filter_cons_of_pos (by simp [beq_iff_eq, hkv])]
        unfold Obj.get at ih ⊢
        by_cases hke : kv.1 = k
        · rw [List.find?_cons_of_pos _ (by simp [beq_iff_eq, hke]),
            List.find?_cons_of_pos _ (by simp [beq_iff_eq, hke])]
        · rw [List.find?_cons_of_neg _ (by simp [beq_iff_eq, hke]),
            List.find?_cons_of_neg _ (by simp [beq_iff_eq, hke])]
          exact ih

/-- The id of `{ id: v, ...body }`: the body's value wins if present. -/
theorem Obj.get_assignId_id (v : JsVal) (body : Obj) :
    Obj.get (assignId v body) "id" = some ((Obj.get body "id").getD v) := by
  unfold assignId Obj.get
  rw [List.find?_cons_of_pos _ (by simp)]
  rfl

/-- Any other key of `{ id: v, ...body }` comes straight from the body. -/
theorem Obj.get_assignId_ne (v : JsVal) (body : Obj) (k : String) (hk : ¬ k = "id") :
    Obj.get (assignId v body) k = Obj.get body k := by
  unfold assignId Obj.get
  rw [List.find?_cons_of_neg _ (by simp only [beq_iff_eq]; exact fun h => hk h.symm)]
  have h := Obj.get_filter_ne_id body k hk
  unfold Obj.get at h
  exact h

/-- The created record parses back to the assigned id when the request
body carried none of its own. -/
theorem recIdInt_assignId (n : Int) (body : Obj) (hb : Obj.get body "id" = none) :
    recIdInt (assignId (JsVal.num n) body) = some n := by
  unfold recIdInt
  rw [Obj.get_assignId_id, hb]
  rfl

/-- A predicate false everywhere makes the findIndex scan miss. -/
theorem jsFindIndex_eq_none (p : Obj → Bool) (l : List Obj)
    (h : ∀ r ∈ l, p r = false) : jsFindIndex p l = none := by
  induction l with
  | nil => rfl
  | cons a rest ih =>
      show (if p a then some 0 else (jsFindIndex p rest).map (fun i => i + 1)) = none
      rw [if_neg (by simp [h a (List.mem_cons_self _ _)])]
      rw [ih (fun r hr => h r (List.mem_cons_of_mem _ hr))]
      rfl

/-- Replacing the found (matching) element keeps every non-matching
element of the list. -/
theorem mem_set_of_findIndex (p : Obj → Bool) (u r : Obj) (l : List Obj) (i : Nat)
    (hi : jsFindIndex p l = some i) (hr : r ∈ l) (hpr : p r = false) :
    r ∈ l.set i u := by
  induction l generalizing i with
  | nil => exact Option.noConfusion hi
  | cons a rest ih =>
      rw [show jsFindIndex p (a :: rest) =
        (if p a then some 0 else (jsFindIndex p rest).map (fun i => i + 1)) from rfl] at hi
      by_cases hpa : p a = true
      · rw [if_pos hpa] at hi
        have hi0 : i = 0 := by simpa using hi.symm
        subst hi0
        rcases List.mem_cons.mp hr with h | h
        · rw [← h, hpr] at hpa; exact Bool.noConfusion hpa
        · exact List.mem_cons_of_mem _ h
      · rw [if_neg hpa] at hi
        cases hj : jsFindIndex p rest with
        | none => rw [hj] at hi; simp at hi
        | some j =>
            rw [hj] at hi
            simp only [Option.map_some'] at hi
            have hij : i = j + 1 := by simpa using hi.symm
            subst hij
            rcases List.mem_cons.mp hr with h | h
            · rw [List.set_cons_succ, h]; exact List.mem_cons_self _ _
            · rw [List.set_cons_succ]
              exact List.mem_cons_of_mem _ (ih j hj h)

/-- C2: `generateId` (the spec's nextId) returns 1 on a collection with
no parseable numeric ids (in particular an empty one), and otherwise one
more than the maximum parseable numeric id, ignoring non-numeric ids;
consequently it is strictly greater than every numeric id present. -/
theorem generateId_spec (d : List Obj) :
    (d.filterMap recIdInt = [] → generateId d = 1) ∧
    (d.filterMap recIdInt ≠ [] →
      ∃ M, M ∈ d.filterMap recIdInt ∧ (∀ n ∈ d.filterMap recIdInt, n ≤ M) ∧
        generateId d = M + 1) ∧
    (∀ n ∈ d.filterMap recIdInt, n < generateId d) := by
  refine ⟨?_, ?_, generateId_gt d⟩
  · intro h
    unfold generateId
    by_cases hd : d.length = 0
    · rw [if_pos hd]
    · rw [if_neg hd, h]
  · intro h
    cases hfm : d.filterMap recIdInt with
    | nil => exact absurd hfm h
    | cons x xs =>
        refine ⟨xs.foldl max x, ?_, ?_, ?_⟩
        · exact foldl_max_mem x xs
        · exact foldl_max_le x xs
        · unfold generateId
          have hd : ¬ d.length = 0 := by
            intro h0
            rw [List.length_eq_zero] at h0
            subst h0
            simp at hfm
          rw [if_neg hd, hfm]

/-- Witness for `generateId_spec` on the store with ids 1 and 3, where
the assigned id evaluates to 4 as in the spec's scenario. -/
theorem generateId_spec_witness :
    ((storeOneThree.filterMap recIdInt = [] → generateId storeOneThree = 1) ∧
      (storeOneThree.filterMap recIdInt ≠ [] →
        ∃ M, M ∈ storeOneThree.filterMap recIdInt ∧
          (∀ n ∈ storeOneThree.filterMap recIdInt, n ≤ M) ∧
          generateId storeOneThree = M + 1) ∧
      (∀ n ∈ storeOneThree.filterMap recIdInt, n < generateId storeOneThree)) ∧
    generateId storeOneThree = 4 :=
  ⟨generateId_spec storeOneThree, by decide⟩

/-- C8: the load path returns an empty collection when the document is
missing, empty, or unparseable, surfacing no error, and returns the
parsed collection when the document exists and parses. -/
theorem readData_failOpen (parse : String → Option (List Obj)) :
    readDataFromFile parse none = [] ∧
    readDataFromFile parse (some "") = [] ∧
    (∀ s, parse s = none → readDataFromFile parse (some s) = []) ∧
    (∀ s d, ¬ s = "" → parse s = some d → readDataFromFile parse (some s) = d) := by
  refine ⟨rfl, by simp [readDataFromFile], ?_, ?_⟩
  · intro s hs
    show (if s = "" then []
      else match parse s with | none => [] | some data => data) = []
    by_cases he : s = ""
    · rw [if_pos he]
    · rw [if_neg he, hs]
  · intro s d hne hp
    show (if s = "" then []
      else match parse s with | none => [] | some data => data) = d
    rw [if_neg hne, hp]

/-- Witness for `readData_failOpen`: a document that fails to parse
loads as empty, and one that parses loads as its parse. -/
theorem readData_failOpen_witness :
    (parseEmptyArr "oops" = none ∧
      readDataFromFile parseEmptyArr (some "oops") = []) ∧
    (¬ "[]" = "" ∧ parseEmptyArr "[]" = some [] ∧
      readDataFromFile parseEmptyArr (some "[]") = []) :=
  ⟨⟨by decide, (readData_failOpen parseEmptyArr).2.2.1 "oops" (by decide)⟩,
   ⟨by decide, by decide,
     (readData_failOpen parseEmptyArr).2.2.2 "[]" [] (by decide) (by decide)⟩⟩

/-- C9: re-saving the loaded collection leaves the collection contents
unchanged: loading after `save(load())` yields the records originally
loaded, provided serialization round-trips through the parser and
serializes to a non-empty document. -/
theorem save_load_noop (parse : String → Option (List Obj))
    (serialize : List Obj → String) (file : Option String)
    (hrt : parse (serialize (readDataFromFile parse file)) =
      some (readDataFromFile parse file))
    (hne : ¬ serialize (readDataFromFile parse file) = "") :
    readDataFromFile parse
        (writeDataToFile serialize (readDataFromFile parse file)) =
      readDataFromFile parse file := by
  show (if serialize (readDataFromFile parse file) = "" then []
    else match parse (serialize (readDataFromFile parse file)) with
      | none => []
      | some data => data) = readDataFromFile parse file
  rw [if_neg hne, hrt]

/-- Witness for `save_load_noop` on the missing-document state with the
concrete parser/serializer pair. -/
theorem save_load_noop_witness :
    (parseEmptyArr (serializeEmptyArr (readDataFromFile parseEmptyArr none)) =
      some (readDataFromFile parseEmptyArr none)) ∧
    (¬ serializeEmptyArr (readDataFromFile parseEmptyArr none) = "") ∧
    readDataFromFile parseEmptyArr
        (writeDataToFile serializeEmptyArr (readDataFromFile parseEmptyArr none)) =
      readDataFromFile parseEmptyArr none :=
  ⟨by decide, by decide,
    save_load_noop parseEmptyArr serializeEmptyArr none (by decide) (by decide)⟩

/-- C10: a path parameter that does not parse as an integer matches no
stored record (even one with a non-numeric id), so Get-by-id, Delete and
Update all respond 404 and the collection is unchanged. -/
theorem unparseablePath_notFound (store : List Obj) (pathParam : String) (body : Obj)
    (h : parseIntStr pathParam = none) :
    getData store pathParam = none ∧
    deleteData store pathParam = ⟨404, store⟩ ∧
    putData store pathParam body = ⟨404, store, none⟩ := by
  refine ⟨?_, ?_, ?_⟩
  · unfold getData
    rw [h]
    exact List.find?_eq_none.mpr (fun r _ => by rw [idMatches_none r]; simp)
  · have hf : store.filter (fun item => !(idMatches (parseIntStr pathParam) item)) = store :=
      List.filter_eq_self.mpr (fun a _ => by rw [h, idMatches_none a]; rfl)
    show (if (store.filter (fun item => !(idMatches (parseIntStr pathParam) item))).length
          = store.length then (⟨404, store⟩ : DeleteResult)
      else ⟨200, store.filter (fun item => !(idMatches (parseIntStr pathParam) item))⟩)
      = ⟨404, store⟩
    rw [hf, if_pos rfl]
  · unfold putData
    rw [h]

/-- Witness for `unparseablePath_notFound` at the path "abc" on a
one-record store. -/
theorem unparseablePath_notFound_witness :
    parseIntStr "abc" = none ∧
    (getData storeSingle1 "abc" = none ∧
      deleteData storeSingle1 "abc" = ⟨404, storeSingle1⟩ ∧
      putData storeSingle1 "abc" bodyBea = ⟨404, storeSingle1, none⟩) :=
  ⟨by decide, unparseablePath_notFound storeSingle1 "abc" bodyBea (by decide)⟩

/-- C4: an Update or Delete whose parsed path id matches no stored
record responds 404 and leaves the stored collection unchanged (both
handlers return before any save in app.js). -/
theorem notFound_leaves_store (store : List Obj) (pathParam : String) (body : Obj)
    (h : ∀ r ∈ store, idMatches (parseIntStr pathParam) r = false) :
    putData store pathParam body = ⟨404, store, none⟩ ∧
    deleteData store pathParam = ⟨404, store⟩ := by
  constructor
  · unfold putData
    cases hp : parseIntStr pathParam with
    | none => rfl
    | some p =>
        have hj : jsFindIndex (idMatches (some p)) store = none :=
          jsFindIndex_eq_none _ _
            (fun r hr => by have hh := h r hr; rw [hp] at hh; exact hh)
        show (match jsFindIndex (idMatches (some p)) store with
          | none => (⟨404, store, none⟩ : PutResult)
          | some index =>
              let updatedItem := assignId (JsVal.num p) body
              ⟨200, store.set index updatedItem, some updatedItem⟩)
          = ⟨404, store, none⟩
        rw [hj]
  · have hf : store.filter (fun item => !(idMatches (parseIntStr pathParam) item)) = store :=
      List.filter_eq_self.mpr (fun a ha => by rw [h a ha]; rfl)
    show (if (store.filter (fun item => !(idMatches (parseIntStr pathParam) item))).length
          = store.length then (⟨404, store⟩ : DeleteResult)
      else ⟨200, store.filter (fun item => !(idMatches (parseIntStr pathParam) item))⟩)
      = ⟨404, store⟩
    rw [hf, if_pos rfl]

/-- Witness for `notFound_leaves_store`: deleting or updating id 99 on
a store that only holds id 1 is a 404 no-op. -/
theorem notFound_leaves_store_witness :
    (∀ r ∈ storeSingle1, idMatches (parseIntStr "99") r = false) ∧
    (putData storeSingle1 "99" bodyBea = ⟨404, storeSingle1, none⟩ ∧
      deleteData storeSingle1 "99" = ⟨404, storeSingle1⟩) :=
  ⟨by decide, notFound_leaves_store storeSingle1 "99" bodyBea (by decide)⟩

/-- C5: a Delete whose parsed path id matches at least one stored record
responds 200 and persists exactly the non-matching records, in their
original relative order (every matching record is removed). -/
theorem delete_removes_matches (store : List Obj) (pathParam : String)
    (h : ∃ r ∈ store, idMatches (parseIntStr pathParam) r = true) :
    (deleteData store pathParam).status = 200 ∧
    (deleteData store pathParam).store =
      store.filter (fun item => !(idMatches (parseIntStr pathParam) item)) ∧
    (deleteData store pathParam).store.Sublist store ∧
    (∀ r ∈ (deleteData store pathParam).store,
      idMatches (parseIntStr pathParam) r = false) := by
  have hne : ¬ (store.filter
      (fun item => !(idMatches (parseIntStr pathParam) item))).length = store.length := by
    intro hlen
    obtain ⟨r, hr, hm⟩ := h
    have hall := List.filter_length_eq_length.mp hlen r hr
    rw [hm] at hall
    exact Bool.noConfusion hall
  have hD : deleteData store pathParam =
      ⟨200, store.filter (fun item => !(idMatches (parseIntStr pathParam) item))⟩ := by
    show (if (store.filter (fun item => !(idMatches (parseIntStr pathParam) item))).length
          = store.length then (⟨404, store⟩ : DeleteResult)
      else ⟨200, store.filter (fun item => !(idMatches (parseIntStr pathParam) item))⟩)
      = _
    rw [if_neg hne]
  refine ⟨by rw [hD], by rw [hD], ?_, ?_⟩
  · rw [hD]
    exact List.filter_sublist store
  · intro r hr
    rw [hD] at hr
    have hmem := (List.mem_filter.mp hr).2
    simpa using hmem

/-- Witness for `delete_removes_matches`: deleting id 1 from the store
with ids 1 and 2 keeps exactly the record with id 2. -/
theorem delete_removes_matches_witness :
    (∃ r ∈ storeOneTwo, idMatches (parseIntStr "1") r = true) ∧
    ((deleteData storeOneTwo "1").status = 200 ∧
      (deleteData storeOneTwo "1").store =
        storeOneTwo.filter (fun item => !(idMatches (parseIntStr "1") item)) ∧
      (deleteData storeOneTwo "1").store.Sublist storeOneTwo ∧
      (∀ r ∈ (deleteData storeOneTwo "1").store,
        idMatches (parseIntStr "1") r = false)) :=
  ⟨by decide, delete_removes_matches storeOneTwo "1" (by decide)⟩

/-- C7: id matching parses both sides as integers, and a stored record
whose id is not parseable never matches: Get-by-id never returns it,
Delete never removes it and Update never replaces it, for every path
parameter. -/
theorem nonNumericId_never_matches (pathParam : String) (r : Obj)
    (h : recIdInt r = none) :
    idMatches (parseIntStr pathParam) r = false ∧
    (∀ store : List Obj, getData store pathParam ≠ some r) ∧
    (∀ store : List Obj, r ∈ store → r ∈ (deleteData store pathParam).store) ∧
    (∀ store : List Obj, ∀ body : Obj, r ∈ store →
      r ∈ (putData store pathParam body).store) := by
  have hm : idMatches (parseIntStr pathParam) r = false := by
    unfold idMatches
    rw [h]
    cases parseIntStr pathParam <;> rfl
  refine ⟨hm, ?_, ?_, ?_⟩
  · intro store hfind
    unfold getData at hfind
    have hp := List.find?_some hfind
    rw [hm] at hp
    exact Bool.noConfusion hp
  · intro store hr
    show r ∈ (DeleteResult.store
      (if (store.filter (fun item => !(idMatches (parseIntStr pathParam) item))).length
          = store.length then ⟨404, store⟩
        else ⟨200, store.filter (fun item => !(idMatches (parseIntStr pathParam) item))⟩))
    split
    · exact hr
    · exact List.mem_filter.mpr ⟨hr, by rw [hm]; rfl⟩
  · intro store body hr
    show r ∈ (PutResult.store
      (match parseIntStr pathParam with
        | none => ⟨404, store, none⟩
        | some id =>
            match jsFindIndex (idMatches (some id)) store with
            | none => ⟨404, store, none⟩
            | some index => ⟨200, store.set index (assignId (JsVal.num id) body),
                some (assignId (JsVal.num id) body)⟩))
    cases hp : parseIntStr pathParam with
    | none => exact hr
    | some p =>
        show r ∈ (PutResult.store
          (match jsFindIndex (idMatches (some p)) store with
            | none => ⟨404, store, none⟩
            | some index => ⟨200, store.set index (assignId (JsVal.num p) body),
                some (assignId (JsVal.num p) body)⟩))
        cases hj : jsFindIndex (idMatches (some p)) store with
        | none => exact hr
        | some i =>
            rw [hp] at hm
            exact mem_set_of_findIndex (idMatches (some p)) _ r store i hj hr hm

/-- Witness for `nonNumericId_never_matches`: the record with id "zz"
survives any get, delete, or update directed at path id 5. -/
theorem nonNumericId_never_matches_witness :
    recIdInt recNoNumId = none ∧
    (idMatches (parseIntStr "5") recNoNumId = false ∧
      (∀ store : List Obj, getData store "5" ≠ some recNoNumId) ∧
      (∀ store : List Obj, recNoNumId ∈ store →
        recNoNumId ∈ (deleteData store "5").store) ∧
      (∀ store : List Obj, ∀ body : Obj, recNoNumId ∈ store →
        recNoNumId ∈ (putData store "5" body).store)) :=
  ⟨by decide, nonNumericId_never_matches "5" recNoNumId (by decide)⟩

/-- C1 fails as stated: in `{ id: newId, ...req.body }` the spread comes
last, so a client-supplied id overrides the generated one; and Create
does not repair pre-existing duplicate non-integer ids.  On the store
holding the id-"zz" record twice and a body carrying id 7, the created
record's id is the body's 7 although `generateId` returns 1, and the
saved collection's ids are not unique integers. -/
theorem create_id_cex :
    Obj.get (postData storeDupZZ bodyWithId7).data "id" = some (JsVal.num 7) ∧
    generateId storeDupZZ = 1 ∧
    ¬ uniqueIntIds (postData storeDupZZ bodyWithId7).store :=
  ⟨by decide, by decide, by decide⟩

/-- C1 amended: when the request body carries no id field, the created
record's id is exactly the store-computed `generateId` value, and a
collection whose id values are pairwise-distinct integers keeps that
invariant across the Create. -/
theorem create_id_assigned (store : List Obj) (body : Obj)
    (hb : Obj.get body "id" = none) (hinv : uniqueIntIds store) :
    Obj.get (postData store body).data "id" = some (JsVal.num (generateId store)) ∧
    uniqueIntIds (postData store body).store := by
  have hdata : (postData store body).data
      = assignId (JsVal.num (generateId store)) body := rfl
  have hstore : (postData store body).store
      = store ++ [assignId (JsVal.num (generateId store)) body] := rfl
  have hid : Obj.get (assignId (JsVal.num (generateId store)) body) "id"
      = some (JsVal.num (generateId store)) := by
    rw [Obj.get_assignId_id, hb]
    rfl
  have htodo : rawIntId (assignId (JsVal.num (generateId store)) body)
      = some (generateId store) := by
    unfold rawIntId
    rw [hid]
  refine ⟨by rw [hdata, hid], ?_, ?_⟩
  · rw [hstore]
    intro r hr
    rcases List.mem_append.mp hr with h | h
    · exact hinv.1 r h
    · rw [List.mem_singleton] at h
      subst h
      rw [htodo]
      rfl
  · rw [hstore, List.map_append]
    refine List.Nodup.append hinv.2 (List.nodup_singleton _) ?_
    intro a ha hb2
    rw [List.map_singleton, List.mem_singleton] at hb2
    subst hb2
    obtain ⟨r, hr, hra⟩ := List.mem_map.mp ha
    rw [htodo] at hra
    have hrec := recIdInt_of_rawIntId r (generateId store) hra
    have hmem : generateId store ∈ store.filterMap recIdInt :=
      List.mem_filterMap.mpr ⟨r, hr, hrec⟩
    exact absurd (generateId_gt store _ hmem) (lt_irrefl _)

/-- Witness for `create_id_assigned`: creating the Ana record on the
store with ids 1 and 3 assigns id 4 and keeps ids unique. -/
theorem create_id_assigned_witness :
    (Obj.get bodyAna "id" = none ∧ uniqueIntIds storeOneThree) ∧
    (Obj.get (postData storeOneThree bodyAna).data "id"
        = some (JsVal.num (generateId storeOneThree)) ∧
      uniqueIntIds (postData storeOneThree bodyAna).store) :=
  ⟨⟨by decide, by decide⟩,
    create_id_assigned storeOneThree bodyAna (by decide) (by decide)⟩

/-- C3 fails as stated: in `{ id, ...req.body }` the spread comes last,
so a body-supplied id replaces the preserved one; moreover the kept id
is the parsed path parameter, not the stored value verbatim.  Updating
the record whose stored id is the string " 3" via path "3" with a body
carrying id 99 yields a record whose id is 99, not the prior id. -/
theorem update_id_cex :
    (putData [recOld3] "3" bodyId99).data
        = some [("id", JsVal.num 99), ("email", JsVal.str "e@x.com")] ∧
    Obj.get recOld3 "id" = some (JsVal.str " 3") ∧
    ¬ (some (JsVal.num 99) = some (JsVal.str " 3")) :=
  ⟨by decide, by decide, by decide⟩

/-- C3 amended: a matching Update replaces the record at the found
position wholesale with `{ id: parsed path id, ...body }`: every field
present in the body takes the body's value (a body-supplied id included,
overriding the path id), every omitted field is absent afterwards, and
otherwise the id field holds the parsed integer path id. -/
theorem update_replaces_record (store : List Obj) (pathParam : String) (body : Obj)
    (p : Int) (hp : parseIntStr pathParam = some p)
    (i : Nat) (hi : jsFindIndex (idMatches (some p)) store = some i) :
    (putData store pathParam body).status = 200 ∧
    (putData store pathParam body).store
        = store.set i (assignId (JsVal.num p) body) ∧
    (putData store pathParam body).data = some (assignId (JsVal.num p) body) ∧
    (∀ k, ¬ k = "id" → Obj.get (assignId (JsVal.num p) body) k = Obj.get body k) ∧
    Obj.get (assignId (JsVal.num p) body) "id"
        = some ((Obj.get body "id").getD (JsVal.num p)) := by
  have hput : putData store pathParam body
      = ⟨200, store.set i (assignId (JsVal.num p) body),
          some (assignId (JsVal.num p) body)⟩ := by
    unfold putData
    rw [hp]
    show (match jsFindIndex (idMatches (some p)) store with
      | none => (⟨404, store, none⟩ : PutResult)
      | some index =>
          let updatedItem := assignId (JsVal.num p) body
          ⟨200, store.set index updatedItem, some updatedItem⟩) = _
    rw [hi]
  refine ⟨by rw [hput], by rw [hput], by rw [hput], ?_, Obj.get_assignId_id _ _⟩
  intro k hk
  exact Obj.get_assignId_ne _ body k hk

/-- Witness for `update_replaces_record`: updating id 3 with the Bea
body replaces the whole record and drops the prior phone field. -/
theorem update_replaces_record_witness :
    (parseIntStr "3" = some 3 ∧
      jsFindIndex (idMatches (some 3)) storePhone3 = some 0) ∧
    ((putData storePhone3 "3" bodyBea).status = 200 ∧
      (putData storePhone3 "3" bodyBea).store
          = storePhone3.set 0 (assignId (JsVal.num 3) bodyBea) ∧
      (putData storePhone3 "3" bodyBea).data
          = some (assignId (JsVal.num 3) bodyBea) ∧
      (∀ k, ¬ k = "id" →
        Obj.get (assignId (JsVal.num 3) bodyBea) k = Obj.get bodyBea k) ∧
      Obj.get (assignId (JsVal.num 3) bodyBea) "id"
          = some ((Obj.get bodyBea "id").getD (JsVal.num 3))) :=
  ⟨⟨by decide, by decide⟩,
    update_replaces_record storePhone3 "3" bodyBea 3 (by decide) 0 (by decide)⟩

/-- C6 fails as stated: a Create whose body smuggles in a non-numeric
id yields a record whose id is that string, and the follow-up
Get-by-returned-id responds 404, not 200. -/
theorem create_then_get_cex :
    Obj.get (postData ([] : List Obj) bodyIdAbc).data "id" = some (JsVal.str "abc") ∧
    getData (postData ([] : List Obj) bodyIdAbc).store "abc" = none :=
  ⟨by decide, by decide⟩

/-- C6 amended: when the request body carries no id field, a Create on
any loadable store followed by a Get-by-id whose path parameter parses
to the assigned id responds with exactly the created record: the body's
fields plus the assigned id. -/
theorem create_then_get (store : List Obj) (body : Obj) (pathParam : String)
    (hb : Obj.get body "id" = none)
    (hp : parseIntStr pathParam = some (generateId store)) :
    getData (postData store body).store pathParam = some (postData store body).data ∧
    Obj.get (postData store body).data "id" = some (JsVal.num (generateId store)) ∧
    (∀ k, ¬ k = "id" → Obj.get (postData store body).data k = Obj.get body k) := by
  have hdata : (postData store body).data
      = assignId (JsVal.num (generateId store)) body := rfl
  have hstore : (postData store body).store
      = store ++ [assignId (JsVal.num (generateId store)) body] := rfl
  have hnomatch : ∀ r ∈ store, ¬ idMatches (some (generateId store)) r = true := by
    intro r hr hmt
    obtain ⟨n, hn1, hn2⟩ := (idMatches_true_iff _ r).mp hmt
    have hn : n = generateId store := (Option.some.inj hn1).symm
    rw [hn] at hn2
    have hmem : generateId store ∈ store.filterMap recIdInt :=
      List.mem_filterMap.mpr ⟨r, hr, hn2⟩
    exact absurd (generateId_gt store _ hmem) (lt_irrefl _)
  have hmatch : idMatches (some (generateId store))
      (assignId (JsVal.num (generateId store)) body) = true := by
    rw [idMatches_true_iff]
    exact ⟨generateId store, rfl, recIdInt_assignId _ body hb⟩
  refine ⟨?_, ?_, ?_⟩
  · rw [hstore, hdata]
    unfold getData
    rw [hp, List.find?_append, List.find?_eq_none.mpr hnomatch,
      List.find?_cons_of_pos _ hmatch]
    rfl
  · rw [hdata, Obj.get_assignId_id, hb]
    rfl
  · intro k hk
    rw [hdata]
    exact Obj.get_assignId_ne _ body k hk

/-- Witness for `create_then_get`: the spec's scenario of creating the
Ana record on an empty store and fetching id 1 back. -/
theorem create_then_get_witness :
    (Obj.get bodyAna "id" = none ∧
      parseIntStr "1" = some (generateId ([] : List Obj))) ∧
    (getData (postData ([] : List Obj) bodyAna).store "1"
        = some (postData ([] : List Obj) bodyAna).data ∧
      Obj.get (postData ([] : List Obj) bodyAna).data "id"
          = some (JsVal.num (generateId ([] : List Obj))) ∧
      (∀ k, ¬ k = "id" →
        Obj.get (postData ([] : List Obj) bodyAna).data k = Obj.get bodyAna k)) :=
  ⟨⟨by decide, by decide⟩, create_then_get [] bodyAna "1" (by decide) (by decide)⟩
